import Mathlib

/-!
# chess_6dof: the pose-tracking loop of `track/track.cpp`

A shallow embedding of the numerical part of `track.cpp` and of one iteration
of its tracking loop.

Modelling conventions.

* Arithmetic is exact: `float` is a linearly ordered field `K` (the statements
  hold for the rationals and for the reals alike; concrete evaluations are done
  over the rationals).  Rounding is not modelled, and `chessSquareSize` is the
  exact number `3.025`.
* `cv::Point3f` and `cv::Vec3f` are the same record `Point3f`.
* `cv::Mat` values have their dimensions in their type; the one matrix product
  of the program whose inner dimensions are not fixed (the covariance) returns
  `none` when they differ, where OpenCV raises an error.
* `int count = points.size()` is exact (the clouds of the program have 40
  points), and `sum / count` is only meaningful for a non-empty list: the
  statements about `centroid` assume one.
* The OpenCV routines `findChessboardCorners`, `triangulatePoints` (followed by
  `convertPointsFromHomogeneous`) and `SVD::compute` are parameters.  Where a
  statement depends on what they deliver, their contract is a hypothesis:
  `FindsWholeBoard` (a chessboard is found only with all 40 corners),
  `KeepsCount` (triangulation returns one point per correspondence) and
  `IsSVD`, `IsSortedSVD`.
-/

namespace Track

variable {K : Type} [LinearOrderedField K]

/-! ## Data model -/

/-- A 3-D point (`cv::Point3f`, also used for `cv::Vec3f`). -/
structure Point3f (K : Type) where
  x : K
  y : K
  z : K
deriving DecidableEq

/-- A 2-D image point (`cv::Point2f`). -/
structure Point2f (K : Type) where
  x : K
  y : K
deriving DecidableEq

/-- A 3x3 matrix (`cv::Mat` of size 3x3). -/
abbrev Mat33 (K : Type) := Matrix (Fin 3) (Fin 3) K

/-- A pose (`cv::Affine3f`): rotation part and translation part. -/
structure Affine3f (K : Type) where
  rotation : Mat33 K
  translation : Point3f K

/-- The identity pose, the value of a default-constructed `cv::Affine3f`. -/
def Affine3f.identity : Affine3f K := ⟨1, ⟨0, 0, 0⟩⟩

/-- The three outputs of `SVD::compute(src, s, u, vt)`. -/
structure SVDOut (K : Type) where
  s : Fin 3 → K
  u : Mat33 K
  vt : Mat33 K

/-- Coordinate `r` of a point: row `r` of its column in a point matrix. -/
def Point3f.coord (p : Point3f K) (r : Fin 3) : K :=
  match r with
  | 0 => p.x
  | 1 => p.y
  | 2 => p.z

/-- Unary minus of a point (`-initialPosition`, `-currPosition`). -/
def Point3f.neg (p : Point3f K) : Point3f K := ⟨-p.x, -p.y, -p.z⟩

/-- Sum of two vectors (`sum += Vec3f{p}`). -/
def Point3f.add (p q : Point3f K) : Point3f K := ⟨p.x + q.x, p.y + q.y, p.z + q.z⟩

/-! ## Constants -/

/-- Constant `chessboardSize.width`. -/
def chessboardWidth : Nat := 8

/-- Constant `chessboardSize.height`. -/
def chessboardHeight : Nat := 5

/-- Constant `chessSquareSize = 3.025`. -/
def chessSquareSize : K := 3025 / 1000

/-! ## The helper functions of `track.cpp` -/

/-- Function `centroid`: the accumulated sum of the points divided by their count. -/
def centroid (points : List (Point3f K)) : Point3f K :=
  let sum : Point3f K := points.foldl (fun s p => Point3f.add s p) ⟨0, 0, 0⟩
  let count : Nat := points.length
  ⟨sum.x / count, sum.y / count, sum.z / count⟩

/-- Function `createPointMatrix`: the 3 x n matrix whose column `i` is point `i`. -/
def createPointMatrix (points : List (Point3f K)) : Matrix (Fin 3) (Fin points.length) K :=
  Matrix.of fun r i => (points.get i).coord r

/-- Function `pointsTranslate`: every point moved by `v`. -/
def pointsTranslate (points : List (Point3f K)) (v : Point3f K) : List (Point3f K) :=
  points.map fun p => ⟨p.x + v.x, p.y + v.y, p.z + v.z⟩

/-- Loop of `findChessboards` from image index `i` on: the corners of each image
are written to `pointsOut[i]`, and the first image without a chessboard ends the
loop with `false`. -/
def findChessboardsFrom {Img : Type} (findChessboardCorners : Img → Bool × List (Point2f K)) :
    List Img → Nat → List (List (Point2f K)) → Bool × List (List (Point2f K))
  | [], _, pointsOut => (true, pointsOut)
  | img :: rest, i, pointsOut =>
    let r := findChessboardCorners img
    let pointsOut1 := pointsOut.set i r.2
    if !r.1 then (false, pointsOut1)
    else findChessboardsFrom findChessboardCorners rest (i + 1) pointsOut1

/-- Function `findChessboards`: the result flag and the updated `pointsOut`. -/
def findChessboards {Img : Type} (findChessboardCorners : Img → Bool × List (Point2f K))
    (images : List Img) (pointsOut : List (List (Point2f K))) :
    Bool × List (List (Point2f K)) :=
  findChessboardsFrom findChessboardCorners images 0 pointsOut

/-! ## `main`: the reference grid -/

/-- The reference grid `initialPoints` of `main`: for each `z` below the height and
each `x` below the width, in that order, the point
`(x * chessSquareSize, 0, z * chessSquareSize)` is appended. -/
def initialPoints : List (Point3f K) :=
  (List.range chessboardHeight).foldl
    (fun acc z =>
      (List.range chessboardWidth).foldl
        (fun acc x => acc ++ [⟨(x : K) * chessSquareSize, 0, (z : K) * chessSquareSize⟩])
        acc)
    []

/-- Value `initialPosition` of `main`. -/
def initialPosition : Point3f K := centroid initialPoints

/-- Value `initialPointsCentered` of `main`. -/
def initialPointsCentered : List (Point3f K) :=
  pointsTranslate initialPoints initialPosition.neg

/-! ## `main`: the rigid alignment block -/

/-- The matrix product `refMat * curMat.t()` of the two point matrices
(`covarianceMatrix` in `main`); `none` when the two lists differ in length, where
the product of a 3 x n and an m x 3 matrix is an OpenCV error. -/
def covarianceMatrix (refCentered curCentered : List (Point3f K)) : Option (Mat33 K) :=
  if h : refCentered.length = curCentered.length then
    some (createPointMatrix refCentered *
      ((createPointMatrix curCentered).submatrix id (Fin.cast h)).transpose)
  else none

/-- Statement `rot.col(2) *= -1`: column 2 of the matrix negated. -/
def negateCol2 (rot : Mat33 K) : Mat33 K :=
  Matrix.of fun i j => if j = 2 then -rot i j else rot i j

/-- The rotation handed to `currTransform.rotation`, from the outputs `u` and `vt`
of the decomposition: `rot = vt.t() * u.t()`, with its column 2 negated when
`determinant(rot) < 0`. -/
def alignRotation (u vt : Mat33 K) : Mat33 K :=
  let rot := vt.transpose * u.transpose
  if rot.det < 0 then negateCol2 rot else rot

/-- The alignment part of one loop iteration, from the centered reference and the
triangulated cloud `currPoints`: centroid, centering, covariance, decomposition,
rotation with its determinant check, translation `currPosition`.  The result is
`currTransform`; `none` when the covariance product is an error. -/
def rigidAlign (svdCompute : Mat33 K → SVDOut K) (refCentered currPoints : List (Point3f K)) :
    Option (Affine3f K) :=
  let currPosition := centroid currPoints
  let currPointsCentered := pointsTranslate currPoints currPosition.neg
  match covarianceMatrix refCentered currPointsCentered with
  | none => none
  | some cov =>
    let d := svdCompute cov
    let rot := alignRotation d.u d.vt
    some ⟨rot, currPosition⟩

/-- The alignment of a reference cloud and a current cloud as `main` performs it:
the reference is centered on its centroid (once, before the loop), and the
alignment block is run on the result and the current cloud. -/
def alignClouds (svdCompute : Mat33 K → SVDOut K) (reference current : List (Point3f K)) :
    Option (Affine3f K) :=
  rigidAlign svdCompute (pointsTranslate reference (centroid reference).neg) current

/-- The covariance matrix `main` computes for a reference and a current cloud:
both are centered on their own centroid and their point matrices multiplied. -/
def covarianceOfClouds (reference current : List (Point3f K)) : Option (Mat33 K) :=
  covarianceMatrix (pointsTranslate reference (centroid reference).neg)
    (pointsTranslate current (centroid current).neg)

/-! ## `main`: one iteration of the tracking loop -/

/-- The steps of an iteration that the log of the loop records. -/
inductive Call (K : Type) where
  | triangulatePoints (points0 points1 : List (Point2f K))
  | align (currPoints : List (Point3f K))
  | setWidgetPose (pose : Affine3f K)

/-- How an iteration ends: at `continue`, at the end of the loop body, or with an
OpenCV error. -/
inductive Status where
  | skipped
  | published
  | raised
deriving DecidableEq

/-- What the loop carries from one iteration to the next: `imagePoints`, the pose
of the widget drone, the cloud of the widget chessboard (none before the first
one is shown), and the log of the steps performed so far. -/
structure TrackState (K : Type) where
  imagePoints : List (List (Point2f K))
  drone : Affine3f K
  chessboard : Option (List (Point3f K))
  calls : List (Call K)

/-- One iteration of the `do ... while` loop of `main` on the captured `frames`.
`triangulate` stands for `triangulatePoints` with the two projection matrices
followed by `convertPointsFromHomogeneous` (`none`: OpenCV raised an error);
`refCentered` is the loop-invariant `initialPointsCentered`, whose point matrix
the loop body multiplies with. -/
def trackIteration {Img : Type} (findChessboardCorners : Img → Bool × List (Point2f K))
    (triangulate : List (Point2f K) → List (Point2f K) → Option (List (Point3f K)))
    (svdCompute : Mat33 K → SVDOut K) (refCentered : List (Point3f K)) (frames : List Img)
    (st : TrackState K) : Status × TrackState K :=
  let r := findChessboards findChessboardCorners frames st.imagePoints
  let st1 : TrackState K := { st with imagePoints := r.2 }
  if !r.1 then (Status.skipped, st1)
  else
    let points0 := r.2.getD 0 []
    let points1 := r.2.getD 1 []
    let st2 : TrackState K :=
      { st1 with calls := st1.calls ++ [Call.triangulatePoints points0 points1] }
    match triangulate points0 points1 with
    | none => (Status.raised, st2)
    | some currPoints =>
      let st3 : TrackState K := { st2 with calls := st2.calls ++ [Call.align currPoints] }
      match rigidAlign svdCompute refCentered currPoints with
      | none => (Status.raised, st3)
      | some currTransform =>
        (Status.published,
          { st3 with
            chessboard := some currPoints
            drone := currTransform
            calls := st3.calls ++ [Call.setWidgetPose currTransform] })

/-! ## Specification-side notions -/

/-- A decomposition `cov = u * diag(s) * vt` with `u` and `vt` orthogonal. -/
def IsSVD (cov : Mat33 K) (d : SVDOut K) : Prop :=
  d.u * Matrix.diagonal d.s * d.vt = cov ∧
    d.u.transpose * d.u = 1 ∧ d.vt.transpose * d.vt = 1

/-- A decomposition as `SVD::compute` documents it: the singular values are
non-negative and in descending order, so that the last one is the smallest. -/
def IsSortedSVD (cov : Mat33 K) (d : SVDOut K) : Prop :=
  IsSVD cov d ∧ d.s 0 ≥ d.s 1 ∧ d.s 1 ≥ d.s 2 ∧ d.s 2 ≥ 0

/-- Contract of `cv::findChessboardCorners` for the 8 x 5 pattern (no partial
results): a chessboard is reported as found only together with all of its
`chessboardWidth * chessboardHeight` corners. -/
def FindsWholeBoard {Img : Type} (findChessboardCorners : Img → Bool × List (Point2f K)) : Prop :=
  ∀ img, (findChessboardCorners img).1 = true →
    (findChessboardCorners img).2.length = chessboardWidth * chessboardHeight

/-- Contract of `cv::triangulatePoints` followed by
`cv::convertPointsFromHomogeneous`: for two sequences of the same length, as many
points are returned as correspondences are given. -/
def KeepsCount (triangulate : List (Point2f K) → List (Point2f K) → Option (List (Point3f K))) :
    Prop :=
  ∀ points0 points1 currPoints, triangulate points0 points1 = some currPoints →
    points0.length = points1.length → currPoints.length = points0.length

/-- A proper rotation: orthogonal with determinant one. -/
def IsProperRotation (R : Mat33 K) : Prop :=
  R.transpose * R = 1 ∧ R.det = 1

/-- The image `R * p` of a point under a matrix. -/
def applyMat (R : Mat33 K) (p : Point3f K) : Point3f K :=
  ⟨R 0 0 * p.x + R 0 1 * p.y + R 0 2 * p.z,
   R 1 0 * p.x + R 1 1 * p.y + R 1 2 * p.z,
   R 2 0 * p.x + R 2 1 * p.y + R 2 2 * p.z⟩

/-- Three points are collinear: the cross product of the two difference vectors
from the first one vanishes. -/
def Collinear3 (a b c : Point3f K) : Prop :=
  (b.y - a.y) * (c.z - a.z) - (b.z - a.z) * (c.y - a.y) = 0 ∧
  (b.z - a.z) * (c.x - a.x) - (b.x - a.x) * (c.z - a.z) = 0 ∧
  (b.x - a.x) * (c.y - a.y) - (b.y - a.y) * (c.x - a.x) = 0

/-- All points of a list lie on one line. -/
def AllCollinear (points : List (Point3f K)) : Prop :=
  ∀ a ∈ points, ∀ b ∈ points, ∀ c ∈ points, Collinear3 a b c

/-- The reflection correction in the words of the specification: when the candidate
`V * Uᵗ` (with `V = Vtᵗ`) has negative determinant, the column of `V` that belongs
to the smallest singular value (the last one) is negated and the rotation is
recomputed from the factors. -/
def alignRotationSpec (u vt : Mat33 K) : Mat33 K :=
  let v := vt.transpose
  if (v * u.transpose).det < 0 then negateCol2 v * u.transpose else v * u.transpose

/-! ## Concrete values used in the evaluations -/

/-- The 3x3 matrix with the given rows. -/
def mat33 (a b c d e f g h i : K) : Mat33 K :=
  Matrix.of fun r s =>
    match r, s with
    | 0, 0 => a | 0, 1 => b | 0, 2 => c
    | 1, 0 => d | 1, 1 => e | 1, 2 => f
    | 2, 0 => g | 2, 1 => h | 2, 2 => i

/-- Left factor of a decomposition of the covariance of the grid with itself:
the columns are the axes x, z, y. -/
def flipU : Mat33 ℚ := mat33 1 0 0 0 0 1 0 1 0

/-- Right factor `vt` of that decomposition: the rows are the axes x, z and the
opposite of y. -/
def flipVt : Mat33 ℚ := mat33 1 0 0 0 0 1 0 (-1) 0

/-- The covariance of the reference grid with itself. -/
def gridCov : Mat33 ℚ := Matrix.diagonal ![307461 / 160, 0, 14641 / 20]

/-- A decomposition of `gridCov`, singular values in descending order. -/
def flipSVD : SVDOut ℚ := ⟨![307461 / 160, 14641 / 20, 0], flipU, flipVt⟩

/-- The decomposition of the zero matrix with identity factors. -/
def zeroSVD : SVDOut ℚ := ⟨fun _ => 0, 1, 1⟩

/-- A small reference cloud: three points of the plane y = 0. -/
def sampleReference : List (Point3f ℚ) := [⟨0, 0, 0⟩, ⟨3, 0, 0⟩, ⟨0, 0, 3⟩]

/-- A small current cloud of three points. -/
def sampleCurrent : List (Point3f ℚ) := [⟨1, 1, 1⟩, ⟨1, 4, 1⟩, ⟨4, 1, 1⟩]

/-- A detector on frames that are described by one flag, whether the whole
chessboard is visible: a visible board is reported with its 40 corners, an
invisible one is reported as not found, with no corners. -/
def detectBoard (visible : Bool) : Bool × List (Point2f ℚ) :=
  if visible then (true, List.replicate 40 ⟨0, 0⟩) else (false, [])

/-- The state of the loop before its first iteration, for two cameras. -/
def startState : TrackState ℚ := ⟨[[], []], Affine3f.identity, none, []⟩

/-! ## Auxiliary lemmas -/

theorem foldl_add_eq (points : List (Point3f K)) (acc : Point3f K) :
    points.foldl (fun s p => Point3f.add s p) acc =
      ⟨acc.x + (points.map Point3f.x).sum, acc.y + (points.map Point3f.y).sum,
        acc.z + (points.map Point3f.z).sum⟩ := by
  induction points generalizing acc with
  | nil => simp
  | cons p ps ih =>
    rw [List.foldl_cons, ih]
    simp only [Point3f.add, List.map_cons, List.sum_cons, add_assoc]

theorem centroid_eq_mean (points : List (Point3f K)) :
    centroid points =
      ⟨(points.map Point3f.x).sum / points.length, (points.map Point3f.y).sum / points.length,
        (points.map Point3f.z).sum / points.length⟩ := by
  simp [centroid, foldl_add_eq]

theorem pointsTranslate_length (points : List (Point3f K)) (v : Point3f K) :
    (pointsTranslate points v).length = points.length := by
  simp [pointsTranslate]

theorem sum_map_translate (f g : Point3f K → K) (points : List (Point3f K)) (v : Point3f K) (c : K)
    (h : ∀ p : Point3f K, f ⟨p.x + v.x, p.y + v.y, p.z + v.z⟩ = g p + c) :
    ((pointsTranslate points v).map f).sum = (points.map g).sum + points.length * c := by
  induction points with
  | nil => simp [pointsTranslate]
  | cons p ps ih =>
    simp only [pointsTranslate, List.map_cons, List.sum_cons, List.length_cons, h] at ih ⊢
    rw [ih]; push_cast; ring

theorem centroid_pointsTranslate (points : List (Point3f K)) (v : Point3f K) (h : points ≠ []) :
    centroid (pointsTranslate points v) = (centroid points).add v := by
  have hn : (points.length : K) ≠ 0 := by
    have : points.length ≠ 0 := by simpa using h
    exact_mod_cast this
  simp only [centroid_eq_mean, pointsTranslate_length, Point3f.add]
  rw [sum_map_translate Point3f.x Point3f.x points v v.x (fun p => rfl),
    sum_map_translate Point3f.y Point3f.y points v v.y (fun p => rfl),
    sum_map_translate Point3f.z Point3f.z points v v.z (fun p => rfl)]
  congr 1 <;> field_simp <;> ring

theorem sum_get_eq_zipWith {α β : Type} (f : α → β → K) :
    ∀ (a : List α) (b : List β) (h : a.length = b.length),
      ∑ i : Fin a.length, f (a.get i) (b.get (Fin.cast h i)) = (List.zipWith f a b).sum
  | [], [], _ => by simp
  | [], _ :: _, h => by simp at h
  | _ :: _, [], h => by simp at h
  | x :: xs, y :: ys, h => by
    have h1 : xs.length = ys.length := by simpa using h
    have ih := sum_get_eq_zipWith f xs ys h1
    simp only [List.length_cons, List.zipWith_cons_cons, List.sum_cons, ← ih]
    rw [Fin.sum_univ_succ]
    rfl

theorem covarianceMatrix_eq (a b : List (Point3f K)) (h : a.length = b.length) :
    covarianceMatrix a b = some (Matrix.of fun r c =>
      ∑ i : Fin a.length, (a.get i).coord r * (b.get (Fin.cast h i)).coord c) := by
  unfold covarianceMatrix
  rw [dif_pos h]
  rfl

theorem negateCol2_det (M : Mat33 K) : (negateCol2 M).det = -M.det := by
  simp [Matrix.det_fin_three, negateCol2]
  ring

theorem det_sq_of_orthogonal (M : Mat33 K) (h : M.transpose * M = 1) : M.det = 1 ∨ M.det = -1 := by
  have h1 : M.det * M.det = 1 := by
    have := congrArg Matrix.det h
    rwa [Matrix.det_mul, Matrix.det_transpose, Matrix.det_one] at this
  have h2 : (M.det - 1) * (M.det + 1) = 0 := by ring_nf; rw [← sub_eq_zero] at h1; ring_nf at h1; linarith
  rcases mul_eq_zero.mp h2 with h3 | h3
  · left; linarith
  · right; linarith

theorem alignRotation_det (u vt : Mat33 K) (hu : u.transpose * u = 1) (hvt : vt.transpose * vt = 1) :
    (alignRotation u vt).det = 1 := by
  have hru := det_sq_of_orthogonal u hu
  have hrv := det_sq_of_orthogonal vt hvt
  have hd : (vt.transpose * u.transpose).det = vt.det * u.det := by
    rw [Matrix.det_mul, Matrix.det_transpose, Matrix.det_transpose]
  unfold alignRotation
  simp only
  split_ifs with hneg
  · rw [negateCol2_det]
    rw [hd] at hneg ⊢
    rcases hru with h1 | h1 <;> rcases hrv with h2 | h2 <;> rw [h1, h2] at hneg ⊢ <;> norm_num at hneg ⊢
  · rw [hd] at hneg ⊢
    rcases hru with h1 | h1 <;> rcases hrv with h2 | h2 <;> rw [h1, h2] at hneg ⊢ <;> norm_num at hneg ⊢

theorem initialPoints_eq :
    (initialPoints : List (Point3f K)) =
      (List.range 5).flatMap fun z => (List.range 8).map fun x =>
        (⟨(x : K) * chessSquareSize, 0, (z : K) * chessSquareSize⟩ : Point3f K) := by
  simp [initialPoints, chessboardHeight, chessboardWidth, List.range_succ, List.flatMap]

theorem initialPoints_length : (initialPoints : List (Point3f K)).length = 40 := by
  rw [initialPoints_eq]; simp [List.range_succ, List.flatMap]

theorem initialPoints_get (x z : Nat) (hx : x < 8) (hz : z < 5) :
    (initialPoints : List (Point3f K))[z * 8 + x]? =
      some ⟨chessSquareSize * x, 0, chessSquareSize * z⟩ := by
  rw [initialPoints_eq]
  interval_cases z <;> interval_cases x <;>
    simp [List.range_succ, List.flatMap, mul_comm]

theorem initialPosition_eq : (initialPosition : Point3f K) = ⟨847 / 80, 0, 121 / 20⟩ := by
  rw [initialPosition, centroid_eq_mean, initialPoints_length, initialPoints_eq]
  simp [List.range_succ, List.flatMap, chessSquareSize]
  constructor <;> norm_num

theorem initialPointsCentered_y (p : Point3f K) (h : p ∈ (initialPointsCentered : List (Point3f K))) :
    p.y = 0 := by
  rw [initialPointsCentered, initialPosition_eq, initialPoints_eq] at h
  simp only [pointsTranslate, List.mem_map, List.mem_flatMap] at h
  obtain ⟨q, ⟨z, _, x, _, rfl⟩, rfl⟩ := h
  simp [Point3f.neg]

theorem coord_zero {F : Type} (p : Point3f F) : p.coord 0 = p.x := rfl

theorem coord_one {F : Type} (p : Point3f F) : p.coord 1 = p.y := rfl

theorem coord_two {F : Type} (p : Point3f F) : p.coord 2 = p.z := rfl

theorem initialPointsCentered_eq :
    (initialPointsCentered : List (Point3f K)) =
      (List.range 5).flatMap fun z => (List.range 8).map fun x =>
        (⟨(x : K) * chessSquareSize - 847 / 80, 0, (z : K) * chessSquareSize - 121 / 20⟩ : Point3f K) := by
  rw [initialPointsCentered, initialPosition_eq, initialPoints_eq]
  simp [pointsTranslate, Point3f.neg, List.range_succ, List.flatMap, sub_eq_add_neg]

theorem grid_sum (r c : Fin 3) :
    (List.zipWith (fun p q : Point3f K => p.coord r * q.coord c) initialPointsCentered
      initialPointsCentered).sum = (Matrix.diagonal ![307461 / 160, 0, 14641 / 20] : Mat33 K) r c := by
  rw [initialPointsCentered_eq]
  simp only [List.range_succ, List.flatMap, List.range_zero, List.nil_append, List.map_cons, List.map_nil,
    List.append_nil, List.cons_append, List.zipWith_cons_cons, List.zipWith_nil_right, List.sum_cons,
    List.sum_nil, List.map_append, List.flatten_cons, List.flatten_nil, List.flatten]
  fin_cases r <;> fin_cases c <;>
    simp [coord_zero, coord_one, coord_two, chessSquareSize] <;> norm_num

theorem covarianceMatrix_apply (a b : List (Point3f K)) (h : a.length = b.length) :
    covarianceMatrix a b = some (Matrix.of fun r c =>
      (List.zipWith (fun p q => p.coord r * q.coord c) a b).sum) := by
  rw [covarianceMatrix_eq a b h]
  congr 1
  ext r c
  exact sum_get_eq_zipWith (fun p q => p.coord r * q.coord c) a b h

theorem covariance_grid_self :
    covarianceOfClouds (initialPoints : List (Point3f K)) initialPoints =
      some (Matrix.diagonal ![307461 / 160, 0, 14641 / 20]) := by
  have h0 : pointsTranslate (initialPoints : List (Point3f K)) (centroid initialPoints).neg
      = initialPointsCentered := rfl
  rw [covarianceOfClouds, h0, covarianceMatrix_apply initialPointsCentered initialPointsCentered rfl]
  refine congrArg some (Matrix.ext fun r c => ?_)
  rw [Matrix.of_apply]
  exact grid_sum r c

theorem mat33_mul (a b c d e f g h i a1 b1 c1 d1 e1 f1 g1 h1 i1 : K) :
    mat33 a b c d e f g h i * mat33 a1 b1 c1 d1 e1 f1 g1 h1 i1 =
      mat33 (a * a1 + b * d1 + c * g1) (a * b1 + b * e1 + c * h1) (a * c1 + b * f1 + c * i1)
        (d * a1 + e * d1 + f * g1) (d * b1 + e * e1 + f * h1) (d * c1 + e * f1 + f * i1)
        (g * a1 + h * d1 + i * g1) (g * b1 + h * e1 + i * h1) (g * c1 + h * f1 + i * i1) := by
  ext r s
  fin_cases r <;> fin_cases s <;> simp [Matrix.mul_apply, Fin.sum_univ_three] <;> rfl

theorem mat33_transpose {F : Type} (a b c d e f g h i : F) :
    (mat33 a b c d e f g h i).transpose = mat33 a d g b e h c f i := by
  ext r s
  fin_cases r <;> fin_cases s <;> rfl

theorem diagonal_eq_mat33 (s : Fin 3 → K) :
    Matrix.diagonal s = mat33 (s 0) 0 0 0 (s 1) 0 0 0 (s 2) := by
  ext r c
  fin_cases r <;> fin_cases c <;> simp [mat33]

theorem one_eq_mat33 : (1 : Mat33 K) = mat33 1 0 0 0 1 0 0 0 1 := by
  ext r c
  fin_cases r <;> fin_cases c <;> simp [mat33]

theorem mat33_det (a b c d e f g h i : K) :
    (mat33 a b c d e f g h i).det = a * e * i - a * f * h - b * d * i + b * f * g + c * d * h - c * e * g := by
  rw [Matrix.det_fin_three]; rfl

theorem negateCol2_mat33 (a b c d e f g h i : K) :
    negateCol2 (mat33 a b c d e f g h i) = mat33 a b (-c) d e (-f) g h (-i) := by
  ext r s
  fin_cases r <;> fin_cases s <;> simp [negateCol2, mat33]

theorem mat33_inj {F : Type} (a b c d e f g h i a1 b1 c1 d1 e1 f1 g1 h1 i1 : F) :
    mat33 a b c d e f g h i = mat33 a1 b1 c1 d1 e1 f1 g1 h1 i1 ↔
      a = a1 ∧ b = b1 ∧ c = c1 ∧ d = d1 ∧ e = e1 ∧ f = f1 ∧ g = g1 ∧ h = h1 ∧ i = i1 := by
  constructor
  · intro hm
    exact ⟨congrFun (congrFun hm 0) 0, congrFun (congrFun hm 0) 1, congrFun (congrFun hm 0) 2,
      congrFun (congrFun hm 1) 0, congrFun (congrFun hm 1) 1, congrFun (congrFun hm 1) 2,
      congrFun (congrFun hm 2) 0, congrFun (congrFun hm 2) 1, congrFun (congrFun hm 2) 2⟩
  · rintro ⟨rfl, rfl, rfl, rfl, rfl, rfl, rfl, rfl, rfl⟩
    rfl

theorem flipSVD_isSortedSVD : IsSortedSVD gridCov flipSVD := by
  refine ⟨⟨?_, ?_, ?_⟩, ?_, ?_, ?_⟩
  · simp [flipSVD, flipU, flipVt, gridCov, diagonal_eq_mat33, mat33_mul]
  · simp [flipSVD, flipU, mat33_transpose, mat33_mul, one_eq_mat33]
  · simp [flipSVD, flipVt, mat33_transpose, mat33_mul, one_eq_mat33]
  · norm_num [flipSVD]
  · norm_num [flipSVD]
  · simp [flipSVD]

theorem alignRotation_flip : alignRotation flipU flipVt = mat33 1 0 0 0 (-1) 0 0 0 (-1) := by
  simp [alignRotation, flipU, flipVt, mat33_transpose, mat33_mul, mat33_det, negateCol2_mat33]

theorem alignRotationSpec_flip : alignRotationSpec flipU flipVt = 1 := by
  simp [alignRotationSpec, flipU, flipVt, mat33_transpose, mat33_mul, mat33_det, negateCol2_mat33,
    one_eq_mat33]

theorem flipped_ne_one : (mat33 1 0 0 0 (-1) 0 0 0 (-1) : Mat33 ℚ) ≠ 1 := by
  rw [one_eq_mat33, Ne, mat33_inj]
  norm_num

theorem findChessboardsFrom_fst {F Img : Type} (f : Img → Bool × List (Point2f F)) :
    ∀ (images : List Img) (i : Nat) (pointsOut : List (List (Point2f F))),
      (findChessboardsFrom f images i pointsOut).1 = true ↔ ∀ img ∈ images, (f img).1 = true
  | [], _, _ => by simp [findChessboardsFrom]
  | img :: rest, i, pointsOut => by
    have ih := findChessboardsFrom_fst f rest (i + 1) (pointsOut.set i (f img).2)
    cases hfound : (f img).1 with
    | false => simp [findChessboardsFrom, hfound]
    | true => simp [findChessboardsFrom, hfound, ih]

theorem trackIteration_skip {Img : Type} (f : Img → Bool × List (Point2f K))
    (tri : List (Point2f K) → List (Point2f K) → Option (List (Point3f K)))
    (svd : Mat33 K → SVDOut K) (refC : List (Point3f K)) (frames : List Img) (st : TrackState K)
    (h : (findChessboards f frames st.imagePoints).1 = false) :
    trackIteration f tri svd refC frames st =
      (Status.skipped, { st with imagePoints := (findChessboards f frames st.imagePoints).2 }) := by
  simp [trackIteration, h]

theorem rigidAlign_eq (svd : Mat33 K → SVDOut K) (refC cur : List (Point3f K))
    (h : refC.length = cur.length) :
    ∃ cov, covarianceMatrix refC (pointsTranslate cur (centroid cur).neg) = some cov ∧
      rigidAlign svd refC cur = some ⟨alignRotation (svd cov).u (svd cov).vt, centroid cur⟩ := by
  have h1 : refC.length = (pointsTranslate cur (centroid cur).neg).length := by
    rw [pointsTranslate_length]; exact h
  refine ⟨_, covarianceMatrix_eq _ _ h1, ?_⟩
  simp only [rigidAlign, covarianceMatrix_eq _ _ h1]

theorem trackIteration_raised_triangulate {Img : Type} (f : Img → Bool × List (Point2f K))
    (tri : List (Point2f K) → List (Point2f K) → Option (List (Point3f K)))
    (svd : Mat33 K → SVDOut K) (refC : List (Point3f K)) (frames : List Img) (st : TrackState K)
    (h : (findChessboards f frames st.imagePoints).1 = true)
    (ht : tri ((findChessboards f frames st.imagePoints).2.getD 0 [])
      ((findChessboards f frames st.imagePoints).2.getD 1 []) = none) :
    trackIteration f tri svd refC frames st =
      (Status.raised,
        { st with
          imagePoints := (findChessboards f frames st.imagePoints).2
          calls := st.calls ++
            [Call.triangulatePoints ((findChessboards f frames st.imagePoints).2.getD 0 [])
              ((findChessboards f frames st.imagePoints).2.getD 1 [])] }) := by
  simp only [trackIteration, h, ht]
  rfl

theorem trackIteration_published {Img : Type} (f : Img → Bool × List (Point2f K))
    (tri : List (Point2f K) → List (Point2f K) → Option (List (Point3f K)))
    (svd : Mat33 K → SVDOut K) (refC : List (Point3f K)) (frames : List Img) (st : TrackState K)
    (cur : List (Point3f K)) (T : Affine3f K)
    (h : (findChessboards f frames st.imagePoints).1 = true)
    (ht : tri ((findChessboards f frames st.imagePoints).2.getD 0 [])
      ((findChessboards f frames st.imagePoints).2.getD 1 []) = some cur)
    (ha : rigidAlign svd refC cur = some T) :
    trackIteration f tri svd refC frames st =
      (Status.published,
        { imagePoints := (findChessboards f frames st.imagePoints).2
          drone := T
          chessboard := some cur
          calls := st.calls ++
            [Call.triangulatePoints ((findChessboards f frames st.imagePoints).2.getD 0 [])
              ((findChessboards f frames st.imagePoints).2.getD 1 [])] ++ [Call.align cur] ++
            [Call.setWidgetPose T] }) := by
  simp only [trackIteration, h, ht, ha]
  rfl

theorem alignClouds_eq (svd : Mat33 K → SVDOut K) (ref cur : List (Point3f K))
    (h : ref.length = cur.length) :
    ∃ cov, covarianceOfClouds ref cur = some cov ∧
      alignClouds svd ref cur = some ⟨alignRotation (svd cov).u (svd cov).vt, centroid cur⟩ := by
  have h1 : (pointsTranslate ref (centroid ref).neg).length = cur.length := by
    rw [pointsTranslate_length]; exact h
  exact rigidAlign_eq svd _ cur h1

theorem neg_coord (p : Point3f K) (r : Fin 3) : p.neg.coord r = -p.coord r := by
  fin_cases r <;> rfl

theorem zipWith_centered (ref cur : List (Point3f K)) (u v : Point3f K) (r c : Fin 3) :
    List.zipWith (fun p q : Point3f K => p.coord r * q.coord c) (pointsTranslate ref u.neg)
        (pointsTranslate cur v.neg) =
      List.zipWith (fun p q : Point3f K => (p.coord r - u.coord r) * (q.coord c - v.coord c))
        ref cur := by
  simp only [pointsTranslate, List.zipWith_map]
  congr 1
  funext p q
  fin_cases r <;> fin_cases c <;> simp [Point3f.coord, Point3f.neg, sub_eq_add_neg]

theorem covarianceOfClouds_apply (ref cur : List (Point3f K)) (h : ref.length = cur.length) :
    covarianceOfClouds ref cur = some (Matrix.of fun r c =>
      (List.zipWith (fun p q : Point3f K =>
        (p.coord r - (centroid ref).coord r) * (q.coord c - (centroid cur).coord c)) ref cur).sum) := by
  have h1 : (pointsTranslate ref (centroid ref).neg).length =
      (pointsTranslate cur (centroid cur).neg).length := by
    rw [pointsTranslate_length, pointsTranslate_length]; exact h
  rw [covarianceOfClouds, covarianceMatrix_apply _ _ h1]
  refine congrArg some (Matrix.ext fun r c => ?_)
  rw [Matrix.of_apply, Matrix.of_apply, zipWith_centered]

theorem pointsTranslate_recenter (points : List (Point3f K)) (t : Point3f K) (h : points ≠ []) :
    pointsTranslate (pointsTranslate points t) (centroid (pointsTranslate points t)).neg =
      pointsTranslate points (centroid points).neg := by
  rw [centroid_pointsTranslate points t h]
  simp only [pointsTranslate, List.map_map]
  refine List.map_congr_left fun p _ => ?_
  simp only [Function.comp_apply, Point3f.add, Point3f.neg, Point3f.mk.injEq]
  refine ⟨by ring, by ring, by ring⟩

theorem covarianceOfClouds_translate (ref points : List (Point3f K)) (t : Point3f K)
    (h : points ≠ []) :
    covarianceOfClouds ref (pointsTranslate points t) = covarianceOfClouds ref points := by
  rw [covarianceOfClouds, covarianceOfClouds, pointsTranslate_recenter points t h]

theorem centroid_centered (points : List (Point3f K)) (h : points ≠ []) :
    centroid (pointsTranslate points (centroid points).neg) = ⟨0, 0, 0⟩ := by
  rw [centroid_pointsTranslate points _ h]
  simp [Point3f.add, Point3f.neg]

theorem smallest_singular_value_zero (cov : Mat33 K) (d : SVDOut K) (hd : IsSortedSVD cov d)
    (hdet : cov.det = 0) : d.s 2 = 0 := by
  obtain ⟨⟨hf, hu, hvt⟩, h01, h12, h2⟩ := hd
  have hU : d.u.det ≠ 0 := by
    rcases det_sq_of_orthogonal d.u hu with h | h <;> rw [h] <;> norm_num
  have hV : d.vt.det ≠ 0 := by
    rcases det_sq_of_orthogonal d.vt hvt with h | h <;> rw [h] <;> norm_num
  have hprod : d.s 0 * d.s 1 * d.s 2 = 0 := by
    have h3 := congrArg Matrix.det hf
    rw [Matrix.det_mul, Matrix.det_mul, Matrix.det_diagonal, Fin.prod_univ_three, hdet] at h3
    rcases mul_eq_zero.mp h3 with h4 | h4
    · rcases mul_eq_zero.mp h4 with h5 | h5
      · exact absurd h5 hU
      · exact h5
    · exact absurd h4 hV
  by_contra hne
  have hpos2 : 0 < d.s 2 := lt_of_le_of_ne h2 (Ne.symm hne)
  have hpos1 : 0 < d.s 1 := lt_of_lt_of_le hpos2 h12
  have hpos0 : 0 < d.s 0 := lt_of_lt_of_le hpos1 h01
  have : 0 < d.s 0 * d.s 1 * d.s 2 := by positivity
  linarith

/-! ## The claims -/

/-- Claim C1 (no-reflection guarantee).  For a reference and a current cloud of equal
length, and a decomposition `cov = u * diag(s) * vt` of their covariance with `u`
and `vt` orthogonal, the alignment produces a transform, its rotation is
`vt.t() * u.t()` with column 2 negated when the determinant is negative, and the
determinant of that rotation is exactly 1. -/
theorem rotation_det_one (svdCompute : Mat33 K → SVDOut K) (reference current : List (Point3f K))
    (cov : Mat33 K) (hlen : reference.length = current.length)
    (hcov : covarianceOfClouds reference current = some cov)
    (hsvd : IsSVD cov (svdCompute cov)) :
    ∃ T, alignClouds svdCompute reference current = some T ∧
      T.rotation = alignRotation (svdCompute cov).u (svdCompute cov).vt ∧
      T.rotation.det = 1 := by
  obtain ⟨cov1, h1, h2⟩ := alignClouds_eq svdCompute reference current hlen
  rw [hcov] at h1
  cases Option.some.inj h1
  exact ⟨_, h2, rfl, alignRotation_det _ _ hsvd.2.1 hsvd.2.2⟩

/-- Witness of C1: the reference grid aligned with itself. -/
theorem rotation_det_one_witness :
    (initialPoints : List (Point3f ℚ)).length = (initialPoints : List (Point3f ℚ)).length ∧
      covarianceOfClouds (initialPoints : List (Point3f ℚ)) initialPoints = some gridCov ∧
      IsSVD gridCov flipSVD ∧
      ∃ T, alignClouds (fun _ => flipSVD) (initialPoints : List (Point3f ℚ)) initialPoints = some T ∧
        T.rotation = alignRotation flipSVD.u flipSVD.vt ∧ T.rotation.det = 1 :=
  ⟨rfl, covariance_grid_self, flipSVD_isSortedSVD.1,
    rotation_det_one (fun _ => flipSVD) initialPoints initialPoints gridCov rfl
      covariance_grid_self flipSVD_isSortedSVD.1⟩

theorem grid_not_collinear : ¬ AllCollinear (initialPoints : List (Point3f ℚ)) := by
  intro h
  have hm : ∀ x z : Nat, x < 8 → z < 5 →
      (⟨chessSquareSize * x, 0, chessSquareSize * z⟩ : Point3f ℚ) ∈ initialPoints := by
    intro x z hx hz
    exact List.getElem?_mem (initialPoints_get x z hx hz)
  have h3 := h _ (hm 0 0 (by norm_num) (by norm_num)) _ (hm 1 0 (by norm_num) (by norm_num)) _
    (hm 0 1 (by norm_num) (by norm_num))
  simp [Collinear3, chessSquareSize] at h3

theorem alignClouds_grid_flip :
    alignClouds (fun _ => flipSVD) (initialPoints : List (Point3f ℚ)) initialPoints =
      some ⟨mat33 1 0 0 0 (-1) 0 0 0 (-1), ⟨847 / 80, 0, 121 / 20⟩⟩ := by
  obtain ⟨cov, _, h⟩ := alignClouds_eq (fun _ => flipSVD) (initialPoints : List (Point3f ℚ))
    initialPoints rfl
  rw [h]
  have h1 : centroid (initialPoints : List (Point3f ℚ)) = ⟨847 / 80, 0, 121 / 20⟩ :=
    initialPosition_eq
  have h2 : alignRotation flipSVD.u flipSVD.vt = mat33 1 0 0 0 (-1) 0 0 0 (-1) :=
    alignRotation_flip
  simp only [h1, h2]

theorem applyMat_one (p : Point3f K) : (applyMat 1 p).add ⟨0, 0, 0⟩ = p := by
  simp [applyMat, Point3f.add]

/-- Claim C2 (alignment recovery) evaluated on the reference grid of the program.
The grid is not collinear, the current cloud is the grid moved by the identity
rotation and the zero translation, `flipSVD` is a decomposition of the covariance
with orthogonal factors and sorted singular values, and the rotation returned is
the half-turn about the x axis, not the identity: it sends the centered corner
of index 0 to a point that is not the centered current corner of index 0.  The
correction in the words of the specification returns the identity at these
factors. -/
theorem alignment_recovery_fails_on_grid :
    IsProperRotation (1 : Mat33 ℚ) ∧
      ¬ AllCollinear (initialPoints : List (Point3f ℚ)) ∧
      (initialPoints : List (Point3f ℚ)).map (fun p => (applyMat 1 p).add ⟨0, 0, 0⟩)
        = initialPoints ∧
      covarianceOfClouds (initialPoints : List (Point3f ℚ)) initialPoints = some gridCov ∧
      IsSortedSVD gridCov flipSVD ∧
      alignClouds (fun _ => flipSVD) (initialPoints : List (Point3f ℚ)) initialPoints =
        some ⟨mat33 1 0 0 0 (-1) 0 0 0 (-1), ⟨847 / 80, 0, 121 / 20⟩⟩ ∧
      (mat33 1 0 0 0 (-1) 0 0 0 (-1) : Mat33 ℚ) ≠ 1 ∧
      (initialPointsCentered : List (Point3f ℚ))[0]? = some ⟨-(847 / 80), 0, -(121 / 20)⟩ ∧
      applyMat (mat33 1 0 0 0 (-1) 0 0 0 (-1)) (⟨-(847 / 80), 0, -(121 / 20)⟩ : Point3f ℚ) =
        ⟨-(847 / 80), 0, 121 / 20⟩ ∧
      alignRotationSpec flipSVD.u flipSVD.vt = 1 := by
  refine ⟨⟨by simp, by simp⟩, grid_not_collinear, ?_, covariance_grid_self, flipSVD_isSortedSVD,
    alignClouds_grid_flip, flipped_ne_one, ?_, ?_, alignRotationSpec_flip⟩
  · simp [applyMat_one]
  · rw [initialPointsCentered_eq]
    simp [List.range_succ, List.flatMap]
  · simp [applyMat, mat33]

/-- Claim C3 (reflection correction as specified) evaluated at the factors `flipU` and
`flipVt`: both are orthogonal, the candidate rotation has negative determinant,
the code returns the product with its column 2 negated, the specified correction
returns the identity, and the two differ. -/
theorem reflection_correction_differs :
    flipU.transpose * flipU = 1 ∧ flipVt.transpose * flipVt = 1 ∧
      (flipVt.transpose * flipU.transpose).det < 0 ∧
      alignRotation flipU flipVt = mat33 1 0 0 0 (-1) 0 0 0 (-1) ∧
      alignRotationSpec flipU flipVt = 1 ∧
      alignRotation flipU flipVt ≠ alignRotationSpec flipU flipVt := by
  refine ⟨flipSVD_isSortedSVD.1.2.1, flipSVD_isSortedSVD.1.2.2, ?_, alignRotation_flip,
    alignRotationSpec_flip, ?_⟩
  · simp [flipU, flipVt, mat33_transpose, mat33_mul, mat33_det]
  · rw [alignRotation_flip, alignRotationSpec_flip]
    exact flipped_ne_one

/-- Claim C4 (translation of the returned transform).  For a non-empty current cloud
the alignment produces a transform whose translation is `centroid(current)`, the
componentwise arithmetic mean of the current points; the same translation results
for any other reference of that length and any other decomposition routine; and
for the reference grid as current cloud it is `(3.5 * 3.025, 0, 2 * 3.025)`. -/
theorem translation_is_current_centroid (svdCompute svdCompute2 : Mat33 K → SVDOut K)
    (reference reference2 current : List (Point3f K)) (hne : current ≠ [])
    (hlen : reference.length = current.length) (hlen2 : reference2.length = current.length) :
    (∃ T T2, alignClouds svdCompute reference current = some T ∧
      alignClouds svdCompute2 reference2 current = some T2 ∧
      T.translation = centroid current ∧
      T2.translation = T.translation ∧
      centroid current =
        ⟨(current.map Point3f.x).sum / current.length, (current.map Point3f.y).sum / current.length,
          (current.map Point3f.z).sum / current.length⟩) ∧
    (∃ T, alignClouds svdCompute (initialPoints : List (Point3f K)) initialPoints = some T ∧
      T.translation = ⟨35 / 10 * (3025 / 1000), 0, 2 * (3025 / 1000)⟩) := by
  obtain ⟨_, _, h1⟩ := alignClouds_eq svdCompute reference current hlen
  obtain ⟨_, _, h2⟩ := alignClouds_eq svdCompute2 reference2 current hlen2
  obtain ⟨_, _, h3⟩ := alignClouds_eq svdCompute (initialPoints : List (Point3f K)) initialPoints rfl
  refine ⟨⟨_, _, h1, h2, rfl, rfl, centroid_eq_mean current⟩, _, h3, ?_⟩
  have h4 : centroid (initialPoints : List (Point3f K)) = ⟨847 / 80, 0, 121 / 20⟩ :=
    initialPosition_eq
  simp only [h4, Point3f.mk.injEq]
  norm_num

/-- Witness of C4: a cloud of two points against two references of two points. -/
theorem translation_is_current_centroid_witness :
    ([⟨0, 0, 0⟩, ⟨2, 4, 6⟩] : List (Point3f ℚ)) ≠ [] ∧
      ∃ T, alignClouds (fun _ => zeroSVD) [⟨1, 0, 0⟩, ⟨0, 1, 0⟩] [⟨0, 0, 0⟩, ⟨2, 4, 6⟩] = some T ∧
        T.translation = centroid [⟨0, 0, 0⟩, ⟨2, 4, 6⟩] := by
  refine ⟨by simp, ?_⟩
  obtain ⟨⟨T, _, hT, _, ht, _, _⟩, _⟩ :=
    translation_is_current_centroid (fun _ => zeroSVD) (fun _ => flipSVD)
      [⟨1, 0, 0⟩, ⟨0, 1, 0⟩] [⟨5, 5, 5⟩, ⟨0, 0, 1⟩] [⟨0, 0, 0⟩, ⟨2, 4, 6⟩] (by simp) rfl rfl
  exact ⟨T, hT, ht⟩

theorem centroid_replicate (n : Nat) (p : Point3f K) (hn : n ≠ 0) :
    centroid (List.replicate n p) = p := by
  have hn1 : (n : K) ≠ 0 := by exact_mod_cast hn
  rw [centroid_eq_mean]
  simp only [List.map_replicate, List.sum_replicate, List.length_replicate, nsmul_eq_mul]
  cases p
  simp only [Point3f.mk.injEq]
  refine ⟨by field_simp, by field_simp, by field_simp⟩

theorem alignRotation_one : alignRotation (1 : Mat33 K) 1 = 1 := by
  simp [alignRotation]

theorem allCollinear_replicate (n : Nat) (p : Point3f K) : AllCollinear (List.replicate n p) := by
  intro a ha b hb c hc
  rw [List.eq_of_mem_replicate ha, List.eq_of_mem_replicate hb, List.eq_of_mem_replicate hc]
  simp [Collinear3]

/-- Counterexample to C5: a current cloud of 40 copies of one point is collinear
(the covariance with the reference grid is the zero matrix, of rank 0), and the
alignment produces a transform for it, with the identity as rotation. -/
theorem degenerate_cloud_is_aligned :
    AllCollinear (List.replicate 40 (⟨1, 2, 3⟩ : Point3f ℚ)) ∧
      covarianceOfClouds (initialPoints : List (Point3f ℚ)) (List.replicate 40 ⟨1, 2, 3⟩) = some 0 ∧
      IsSortedSVD (0 : Mat33 ℚ) zeroSVD ∧
      alignClouds (fun _ => zeroSVD) (initialPoints : List (Point3f ℚ))
        (List.replicate 40 ⟨1, 2, 3⟩) = some ⟨1, ⟨1, 2, 3⟩⟩ := by
  have hlen : (initialPoints : List (Point3f ℚ)).length
      = (List.replicate 40 (⟨1, 2, 3⟩ : Point3f ℚ)).length := by
    rw [initialPoints_length, List.length_replicate]
  refine ⟨allCollinear_replicate _ _, ?_, ?_, ?_⟩
  · rw [covarianceOfClouds_apply _ _ hlen]
    refine congrArg some (Matrix.ext fun r c => ?_)
    rw [Matrix.of_apply, centroid_replicate 40 _ (by norm_num)]
    have hz : ∀ (l : List (Point3f ℚ)) (n : Nat) (u : Point3f ℚ),
        (List.zipWith (fun p q : Point3f ℚ => (p.coord r - u.coord r) * (q.coord c -
          (⟨1, 2, 3⟩ : Point3f ℚ).coord c)) l (List.replicate n ⟨1, 2, 3⟩)).sum = 0 := by
      intro l
      induction l with
      | nil => intro n u; simp
      | cons a l ih =>
        intro n u
        cases n with
        | zero => simp
        | succ n => simp [List.replicate_succ, ih]
    exact hz _ _ _
  · refine ⟨⟨?_, ?_, ?_⟩, ?_, ?_, ?_⟩ <;> simp [zeroSVD, ← Matrix.diagonal_zero]
  · obtain ⟨cov, _, h⟩ := alignClouds_eq (fun _ => zeroSVD) (initialPoints : List (Point3f ℚ))
      (List.replicate 40 ⟨1, 2, 3⟩) hlen
    rw [h, centroid_replicate 40 _ (by norm_num)]
    have : alignRotation zeroSVD.u zeroSVD.vt = 1 := alignRotation_one
    rw [this]

/-- Claim C5 as amended.  The alignment has no degeneracy check: for every non-empty
current cloud with as many points as the reference, whether or not it has fewer
than 3 points or is collinear, a transform is produced; its rotation is the one
computed from the decomposition of the covariance and its translation is the
centroid of the current cloud. -/
theorem align_accepts_every_cloud (svdCompute : Mat33 K → SVDOut K)
    (reference current : List (Point3f K)) (hne : current ≠ [])
    (hlen : reference.length = current.length) :
    ∃ cov T, covarianceOfClouds reference current = some cov ∧
      alignClouds svdCompute reference current = some T ∧
      T.rotation = alignRotation (svdCompute cov).u (svdCompute cov).vt ∧
      T.translation = centroid current := by
  obtain ⟨cov, h1, h2⟩ := alignClouds_eq svdCompute reference current hlen
  exact ⟨cov, _, h1, h2, rfl, rfl⟩

/-- Witness of the amended C5: two points against two points. -/
theorem align_accepts_every_cloud_witness :
    ([⟨0, 0, 0⟩, ⟨1, 1, 1⟩] : List (Point3f ℚ)) ≠ [] ∧
      ∃ T, alignClouds (fun _ => zeroSVD) [⟨0, 0, 0⟩, ⟨1, 0, 0⟩] [⟨0, 0, 0⟩, ⟨1, 1, 1⟩] = some T := by
  refine ⟨by simp, ?_⟩
  obtain ⟨_, T, _, hT, _⟩ := align_accepts_every_cloud (fun _ => zeroSVD)
    [⟨0, 0, 0⟩, ⟨1, 0, 0⟩] [⟨0, 0, 0⟩, ⟨1, 1, 1⟩] (by simp) rfl
  exact ⟨T, hT⟩

/-- Claim C6 (frame skip keeps the published pose).  `findChessboards` returns true
exactly when the corner finder reports a chessboard in every image; and in an
iteration in which it returns false the loop continues at once: no triangulation
and no alignment is performed (the log of steps is unchanged), and the pose of
the widget drone and the displayed cloud are the same after the iteration as
before it. -/
theorem frame_skip_keeps_pose {Img : Type} (findChessboardCorners : Img → Bool × List (Point2f K))
    (triangulate : List (Point2f K) → List (Point2f K) → Option (List (Point3f K)))
    (svdCompute : Mat33 K → SVDOut K) (refCentered : List (Point3f K)) (frames : List Img)
    (st : TrackState K)
    (hskip : (findChessboards findChessboardCorners frames st.imagePoints).1 = false) :
    (∀ (images : List Img) (pointsOut : List (List (Point2f K))),
      (findChessboards findChessboardCorners images pointsOut).1 = true ↔
        ∀ img ∈ images, (findChessboardCorners img).1 = true) ∧
    (trackIteration findChessboardCorners triangulate svdCompute refCentered frames st).1
      = Status.skipped ∧
    (trackIteration findChessboardCorners triangulate svdCompute refCentered frames st).2.calls
      = st.calls ∧
    (trackIteration findChessboardCorners triangulate svdCompute refCentered frames st).2.drone
      = st.drone ∧
    (trackIteration findChessboardCorners triangulate svdCompute refCentered frames st).2.chessboard
      = st.chessboard := by
  refine ⟨fun images pointsOut => findChessboardsFrom_fst findChessboardCorners images 0 pointsOut,
    ?_⟩
  rw [trackIteration_skip findChessboardCorners triangulate svdCompute refCentered frames st hskip]
  exact ⟨rfl, rfl, rfl, rfl⟩

theorem findChessboards_flag_false :
    (findChessboards detectBoard [true, false] startState.imagePoints).1 = false := by
  simp [findChessboards, findChessboardsFrom, detectBoard]

/-- Witness of C6: two cameras, the second of which does not see the chessboard. -/
theorem frame_skip_keeps_pose_witness :
    (findChessboards detectBoard [true, false] startState.imagePoints).1 = false ∧
      (trackIteration detectBoard (fun _ _ => none) (fun _ => zeroSVD) initialPointsCentered
        [true, false] startState).1 = Status.skipped ∧
      (trackIteration detectBoard (fun _ _ => none) (fun _ => zeroSVD) initialPointsCentered
        [true, false] startState).2.drone = startState.drone :=
  ⟨findChessboards_flag_false,
    (frame_skip_keeps_pose detectBoard (fun _ _ => none) (fun _ => zeroSVD) initialPointsCentered
      [true, false] startState findChessboards_flag_false).2.1,
    (frame_skip_keeps_pose detectBoard (fun _ _ => none) (fun _ => zeroSVD) initialPointsCentered
      [true, false] startState findChessboards_flag_false).2.2.2.1⟩

theorem findChessboards_two {F Img : Type} (f : Img → Bool × List (Point2f F)) (a b : Img)
    (x y : List (Point2f F))
    (h : (findChessboards f [a, b] [x, y]).1 = true) :
    (findChessboards f [a, b] [x, y]).2 = [(f a).2, (f b).2] ∧
      (f a).1 = true ∧ (f b).1 = true := by
  have hall := (findChessboardsFrom_fst f [a, b] 0 [x, y]).1 h
  have ha : (f a).1 = true := hall a (by simp)
  have hb : (f b).1 = true := hall b (by simp)
  refine ⟨?_, ha, hb⟩
  simp [findChessboards, findChessboardsFrom, ha, hb]

theorem findChessboards_lengths {F Img : Type} (f : Img → Bool × List (Point2f F))
    (frames : List Img) (pointsOut : List (List (Point2f F))) (hdet : FindsWholeBoard f)
    (hframes : frames.length = 2) (hpts : pointsOut.length = 2)
    (h : (findChessboards f frames pointsOut).1 = true) :
    ((findChessboards f frames pointsOut).2.getD 0 []).length = 40 ∧
      ((findChessboards f frames pointsOut).2.getD 1 []).length = 40 := by
  match frames, hframes, pointsOut, hpts with
  | [a, b], _, [x, y], _ =>
    obtain ⟨h2, ha, hb⟩ := findChessboards_two f a b x y h
    rw [h2]
    exact ⟨hdet a ha, hdet b hb⟩

theorem initialPointsCentered_length : (initialPointsCentered : List (Point3f K)).length = 40 := by
  rw [initialPointsCentered, pointsTranslate_length, initialPoints_length]

theorem detectBoard_findsWholeBoard : FindsWholeBoard detectBoard := by
  intro img h
  cases img with
  | false => simp [detectBoard] at h
  | true => simp [detectBoard, chessboardWidth, chessboardHeight]

theorem findChessboards_board_mismatch :
    findChessboards detectBoard [true, false] startState.imagePoints =
      (false, [List.replicate 40 ⟨0, 0⟩, []]) := by
  simp [findChessboards, findChessboardsFrom, detectBoard, startState]

/-- Counterexample to C7.  Camera 0 sees the whole chessboard and delivers its 40
corners, camera 1 does not see it and delivers none (the detector keeps its
contract).  The two correspondence sequences differ in length, from each other
and from the 40 points of the reference, and the iteration is not rejected with
an error: it ends at `continue` like any frame without a chessboard, and the log
of steps stays empty. -/
theorem mismatch_raises_no_error :
    FindsWholeBoard detectBoard ∧
    (findChessboards detectBoard [true, false] startState.imagePoints).2 =
      [List.replicate 40 ⟨0, 0⟩, []] ∧
    (List.replicate 40 (⟨0, 0⟩ : Point2f ℚ)).length ≠ ([] : List (Point2f ℚ)).length ∧
    trackIteration detectBoard (fun _ _ => none) (fun _ => zeroSVD) initialPointsCentered
        [true, false] startState =
      (Status.skipped, { startState with imagePoints := [List.replicate 40 ⟨0, 0⟩, []] }) ∧
    (trackIteration detectBoard (fun _ _ => none) (fun _ => zeroSVD) initialPointsCentered
        [true, false] startState).1 ≠ Status.raised := by
  have h : trackIteration detectBoard (fun _ _ => none) (fun _ => zeroSVD) initialPointsCentered
      [true, false] startState =
      (Status.skipped, { startState with imagePoints := [List.replicate 40 ⟨0, 0⟩, []] }) := by
    rw [trackIteration_skip detectBoard (fun _ _ => none) (fun _ => zeroSVD)
      initialPointsCentered [true, false] startState (by rw [findChessboards_board_mismatch]),
      findChessboards_board_mismatch]
  refine ⟨detectBoard_findsWholeBoard, by rw [findChessboards_board_mismatch], by simp, h, ?_⟩
  rw [h]
  decide

/-- Claim C7 as amended.  The iteration compares no lengths and raises no error for
a mismatch; the frame skip does the rejection.  With a corner finder that reports
a chessboard only with all 40 corners and two cameras: if the correspondence
sequences `imagePoints[0]`, `imagePoints[1]` differ in length from each other or
from the 40 reference points, then some chessboard was not found and the
iteration ends at `continue` before triangulation and alignment, the published
pose unchanged; and in an iteration that is not skipped `triangulatePoints` is
invoked on two sequences of exactly 40 points, and, triangulation returning one
point per correspondence, the covariance is computed from a cloud of as many
points as the reference and the pose is published. -/
theorem mismatch_is_skipped {Img : Type} (findChessboardCorners : Img → Bool × List (Point2f K))
    (triangulate : List (Point2f K) → List (Point2f K) → Option (List (Point3f K)))
    (svdCompute : Mat33 K → SVDOut K) (frames : List Img) (st : TrackState K)
    (hdet : FindsWholeBoard findChessboardCorners) (htri : KeepsCount triangulate)
    (hframes : frames.length = 2) (hpts : st.imagePoints.length = 2) :
    ((((findChessboards findChessboardCorners frames st.imagePoints).2.getD 0 []).length ≠
          ((findChessboards findChessboardCorners frames st.imagePoints).2.getD 1 []).length ∨
        ((findChessboards findChessboardCorners frames st.imagePoints).2.getD 0 []).length ≠ 40 ∨
        ((findChessboards findChessboardCorners frames st.imagePoints).2.getD 1 []).length ≠ 40) →
      (trackIteration findChessboardCorners triangulate svdCompute initialPointsCentered
          frames st).1 = Status.skipped ∧
        (trackIteration findChessboardCorners triangulate svdCompute initialPointsCentered
          frames st).2.calls = st.calls ∧
        (trackIteration findChessboardCorners triangulate svdCompute initialPointsCentered
          frames st).2.drone = st.drone) ∧
    ((trackIteration findChessboardCorners triangulate svdCompute initialPointsCentered
        frames st).1 ≠ Status.skipped →
      ((findChessboards findChessboardCorners frames st.imagePoints).2.getD 0 []).length = 40 ∧
        ((findChessboards findChessboardCorners frames st.imagePoints).2.getD 1 []).length = 40 ∧
        (∃ rest,
          (trackIteration findChessboardCorners triangulate svdCompute initialPointsCentered
            frames st).2.calls =
          st.calls ++
            Call.triangulatePoints
              ((findChessboards findChessboardCorners frames st.imagePoints).2.getD 0 [])
              ((findChessboards findChessboardCorners frames st.imagePoints).2.getD 1 []) :: rest) ∧
        ∀ currPoints,
          triangulate ((findChessboards findChessboardCorners frames st.imagePoints).2.getD 0 [])
            ((findChessboards findChessboardCorners frames st.imagePoints).2.getD 1 [])
              = some currPoints →
          currPoints.length = (initialPointsCentered : List (Point3f K)).length ∧
            (trackIteration findChessboardCorners triangulate svdCompute initialPointsCentered
              frames st).1 = Status.published) := by
  have hskip : (findChessboards findChessboardCorners frames st.imagePoints).1 = false →
      trackIteration findChessboardCorners triangulate svdCompute initialPointsCentered frames st =
        (Status.skipped,
          { st with imagePoints := (findChessboards findChessboardCorners frames st.imagePoints).2 }) :=
    trackIteration_skip findChessboardCorners triangulate svdCompute initialPointsCentered frames st
  constructor
  · intro hmis
    cases hflag : (findChessboards findChessboardCorners frames st.imagePoints).1 with
    | false =>
      rw [hskip hflag]
      exact ⟨rfl, rfl, rfl⟩
    | true =>
      obtain ⟨h0, h1⟩ := findChessboards_lengths findChessboardCorners frames st.imagePoints hdet
        hframes hpts hflag
      rw [h0, h1] at hmis
      simp at hmis
  · intro hns
    cases hflag : (findChessboards findChessboardCorners frames st.imagePoints).1 with
    | false =>
      rw [hskip hflag] at hns
      exact absurd rfl hns
    | true =>
      obtain ⟨h0, h1⟩ := findChessboards_lengths findChessboardCorners frames st.imagePoints hdet
        hframes hpts hflag
      have hcur : ∀ currPoints,
          triangulate ((findChessboards findChessboardCorners frames st.imagePoints).2.getD 0 [])
            ((findChessboards findChessboardCorners frames st.imagePoints).2.getD 1 [])
              = some currPoints →
          currPoints.length = (initialPointsCentered : List (Point3f K)).length := by
        intro cur ht
        rw [htri _ _ cur ht (h0.trans h1.symm), h0, initialPointsCentered_length]
      refine ⟨h0, h1, ?_, ?_⟩
      · cases ht : triangulate
            ((findChessboards findChessboardCorners frames st.imagePoints).2.getD 0 [])
            ((findChessboards findChessboardCorners frames st.imagePoints).2.getD 1 []) with
        | none =>
          rw [trackIteration_raised_triangulate _ _ _ _ _ _ hflag ht]
          exact ⟨[], rfl⟩
        | some cur =>
          obtain ⟨cov, _, ha⟩ := rigidAlign_eq svdCompute initialPointsCentered cur
            (hcur cur ht).symm
          rw [trackIteration_published _ _ _ _ _ _ cur _ hflag ht ha]
          exact ⟨[Call.align cur, Call.setWidgetPose
            ⟨alignRotation (svdCompute cov).u (svdCompute cov).vt, centroid cur⟩], by simp⟩
      · intro cur ht
        obtain ⟨_, _, ha⟩ := rigidAlign_eq svdCompute initialPointsCentered cur (hcur cur ht).symm
        rw [trackIteration_published _ _ _ _ _ _ cur _ hflag ht ha]
        exact ⟨hcur cur ht, rfl⟩

theorem keepsCount_const (n : Nat) :
    KeepsCount (fun points0 _ => some (List.replicate points0.length (⟨n, 0, 0⟩ : Point3f ℚ))) := by
  intro points0 points1 cur h _
  cases Option.some.inj h
  simp

theorem findChessboards_board_both :
    findChessboards detectBoard [true, true] startState.imagePoints =
      (true, [List.replicate 40 ⟨0, 0⟩, List.replicate 40 ⟨0, 0⟩]) := by
  simp [findChessboards, findChessboardsFrom, detectBoard, startState]

theorem trackIteration_board_both :
    (trackIteration detectBoard
      (fun points0 _ => some (List.replicate points0.length (⟨0, 0, 0⟩ : Point3f ℚ)))
      (fun _ => zeroSVD) initialPointsCentered [true, true] startState).1 = Status.published := by
  have hflag : (findChessboards detectBoard [true, true] startState.imagePoints).1 = true := by
    rw [findChessboards_board_both]
  have hlen : (initialPointsCentered : List (Point3f ℚ)).length =
      (List.replicate ((findChessboards detectBoard [true, true]
        startState.imagePoints).2.getD 0 []).length (⟨0, 0, 0⟩ : Point3f ℚ)).length := by
    rw [findChessboards_board_both, initialPointsCentered_length]
    simp
  obtain ⟨cov, _, ha⟩ := rigidAlign_eq (fun _ => zeroSVD) (initialPointsCentered : List (Point3f ℚ))
    _ hlen
  rw [trackIteration_published detectBoard
    (fun points0 _ => some (List.replicate points0.length (⟨0, 0, 0⟩ : Point3f ℚ)))
    (fun _ => zeroSVD) initialPointsCentered [true, true] startState _ _ hflag rfl ha]

/-- Witness of the amended C7.  Camera 0 sees the chessboard and camera 1 does not:
the sequences have 40 and 0 points, the iteration is skipped and the pose kept.
Both cameras see it: the iteration is not skipped, both sequences have 40 points
and the pose is published. -/
theorem mismatch_is_skipped_witness :
    FindsWholeBoard detectBoard ∧
      KeepsCount (fun points0 _ => some (List.replicate points0.length (⟨0, 0, 0⟩ : Point3f ℚ))) ∧
      ([true, false] : List Bool).length = 2 ∧ startState.imagePoints.length = 2 ∧
      ((findChessboards detectBoard [true, false] startState.imagePoints).2.getD 0 []).length ≠
        ((findChessboards detectBoard [true, false] startState.imagePoints).2.getD 1 []).length ∧
      (trackIteration detectBoard
        (fun points0 _ => some (List.replicate points0.length (⟨0, 0, 0⟩ : Point3f ℚ)))
        (fun _ => zeroSVD) initialPointsCentered [true, false] startState).1 = Status.skipped ∧
      (trackIteration detectBoard
        (fun points0 _ => some (List.replicate points0.length (⟨0, 0, 0⟩ : Point3f ℚ)))
        (fun _ => zeroSVD) initialPointsCentered [true, false] startState).2.drone
          = startState.drone ∧
      (trackIteration detectBoard
        (fun points0 _ => some (List.replicate points0.length (⟨0, 0, 0⟩ : Point3f ℚ)))
        (fun _ => zeroSVD) initialPointsCentered [true, true] startState).1 ≠ Status.skipped ∧
      ((findChessboards detectBoard [true, true] startState.imagePoints).2.getD 0 []).length = 40 ∧
      ((findChessboards detectBoard [true, true] startState.imagePoints).2.getD 1 []).length = 40 := by
  have hne : ((findChessboards detectBoard [true, false] startState.imagePoints).2.getD 0 []).length ≠
      ((findChessboards detectBoard [true, false] startState.imagePoints).2.getD 1 []).length := by
    rw [findChessboards_board_mismatch]
    simp
  have hns : (trackIteration detectBoard
      (fun points0 _ => some (List.replicate points0.length (⟨0, 0, 0⟩ : Point3f ℚ)))
      (fun _ => zeroSVD) initialPointsCentered [true, true] startState).1 ≠ Status.skipped := by
    rw [trackIteration_board_both]
    decide
  have h := (mismatch_is_skipped detectBoard
    (fun points0 _ => some (List.replicate points0.length (⟨0, 0, 0⟩ : Point3f ℚ)))
    (fun _ => zeroSVD) [true, false] startState detectBoard_findsWholeBoard (keepsCount_const 0)
    rfl rfl).1 (Or.inl hne)
  have h2 := (mismatch_is_skipped detectBoard
    (fun points0 _ => some (List.replicate points0.length (⟨0, 0, 0⟩ : Point3f ℚ)))
    (fun _ => zeroSVD) [true, true] startState detectBoard_findsWholeBoard (keepsCount_const 0)
    rfl rfl).2 hns
  exact ⟨detectBoard_findsWholeBoard, keepsCount_const 0, rfl, rfl, hne, h.1, h.2.2, hns,
    h2.1, h2.2.1⟩

/-- Claim C8 (cross-covariance construction).  For a reference and a current list of
the same length n >= 1, the product of the point matrix of the centered
reference with the transpose of the point matrix of the centered current cloud
exists, and its entry (r, c) is the sum over the indices i < n of
`(reference[i] - centroid(reference))_r * (current[i] - centroid(current))_c`. -/
theorem covariance_is_sum_of_outer_products (reference current : List (Point3f K))
    (hne : reference ≠ []) (hlen : reference.length = current.length) :
    ∃ M, covarianceMatrix (pointsTranslate reference (centroid reference).neg)
        (pointsTranslate current (centroid current).neg) = some M ∧
      ∀ r c : Fin 3, M r c =
        ∑ i : Fin reference.length,
          ((reference.get i).coord r - (centroid reference).coord r) *
            ((current.get (Fin.cast hlen i)).coord c - (centroid current).coord c) := by
  refine ⟨_, covarianceOfClouds_apply reference current hlen, fun r c => ?_⟩
  rw [Matrix.of_apply]
  exact (sum_get_eq_zipWith (fun p q : Point3f K =>
    (p.coord r - (centroid reference).coord r) * (q.coord c - (centroid current).coord c))
    reference current hlen).symm

theorem sample_length : sampleReference.length = sampleCurrent.length := rfl

/-- Witness of C8: two lists of three points. -/
theorem covariance_is_sum_of_outer_products_witness :
    sampleReference ≠ [] ∧
      ∃ M, covarianceMatrix (pointsTranslate sampleReference (centroid sampleReference).neg)
          (pointsTranslate sampleCurrent (centroid sampleCurrent).neg) = some M ∧
        ∀ r c : Fin 3, M r c =
          ∑ i : Fin sampleReference.length,
            ((sampleReference.get i).coord r - (centroid sampleReference).coord r) *
              ((sampleCurrent.get (Fin.cast sample_length i)).coord c -
                (centroid sampleCurrent).coord c) :=
  ⟨by simp [sampleReference],
    covariance_is_sum_of_outer_products sampleReference sampleCurrent (by simp [sampleReference])
      sample_length⟩

theorem rigidAlign_translate (svdCompute : Mat33 K → SVDOut K) (refCentered points : List (Point3f K))
    (t : Point3f K) (hne : points ≠ []) :
    rigidAlign svdCompute refCentered (pointsTranslate points t) =
      (rigidAlign svdCompute refCentered points).map
        fun T => ⟨T.rotation, T.translation.add t⟩ := by
  simp only [rigidAlign]
  rw [pointsTranslate_recenter points t hne, centroid_pointsTranslate points t hne]
  cases h : covarianceMatrix refCentered (pointsTranslate points (centroid points).neg) <;> rfl

/-- Claim C9 (centering removes translation).  For a non-empty list P and a vector
t: the centroid of the translated list is `centroid(P) + t`; the list centered on
its centroid has centroid zero; for every reference the covariance computed from
the translated cloud equals the one computed from P; and the alignment of the
translated cloud is the alignment of P with the same rotation and with the
translation moved by t (and fails exactly when that of P does). -/
theorem centering_removes_translation (points : List (Point3f K)) (t : Point3f K)
    (hne : points ≠ []) :
    centroid (pointsTranslate points t) = (centroid points).add t ∧
    centroid (pointsTranslate points (centroid points).neg) = ⟨0, 0, 0⟩ ∧
    (∀ reference : List (Point3f K),
      covarianceOfClouds reference (pointsTranslate points t) =
        covarianceOfClouds reference points) ∧
    ∀ (svdCompute : Mat33 K → SVDOut K) (reference : List (Point3f K)),
      alignClouds svdCompute reference (pointsTranslate points t) =
        (alignClouds svdCompute reference points).map
          fun T => ⟨T.rotation, T.translation.add t⟩ :=
  ⟨centroid_pointsTranslate points t hne, centroid_centered points hne,
    fun reference => covarianceOfClouds_translate reference points t hne,
    fun svdCompute _ => rigidAlign_translate svdCompute _ points t hne⟩

/-- Witness of C9: a list of three points moved by (10, 20, 30). -/
theorem centering_removes_translation_witness :
    sampleCurrent ≠ [] ∧
      centroid (pointsTranslate sampleCurrent ⟨10, 20, 30⟩) =
        (centroid sampleCurrent).add ⟨10, 20, 30⟩ :=
  ⟨by simp [sampleCurrent],
    (centering_removes_translation sampleCurrent ⟨10, 20, 30⟩ (by simp [sampleCurrent])).1⟩

theorem covariance_row_one_zero (cur : List (Point3f K)) (c : Fin 3) :
    ∀ ref : List (Point3f K), (∀ p ∈ ref, p.y = 0) →
      (List.zipWith (fun p q : Point3f K => p.coord 1 * q.coord c) ref cur).sum = 0 := by
  induction cur with
  | nil => intro ref _; simp
  | cons q qs ih =>
    intro ref h
    cases ref with
    | nil => simp
    | cons p ps =>
      have hp : p.y = 0 := h p (List.mem_cons_self _ _)
      have hps := ih ps fun a ha => h a (List.mem_cons_of_mem _ ha)
      rw [List.zipWith_cons_cons, List.sum_cons, hps, coord_one, hp]
      simp

/-- Claim C10 (the reference grid is planar and makes the covariance singular).  The
grid has 40 points, the one at index `z * 8 + x` being `(3.025 x, 0, 3.025 z)`;
every centered reference point has y-coordinate 0; and for every current cloud of
40 points the covariance exists, its row 1 is zero, its determinant is 0, and in
every decomposition with orthogonal factors and sorted non-negative singular
values the smallest singular value is 0. -/
theorem grid_covariance_is_singular (x z : Nat) (hx : x < 8) (hz : z < 5)
    (current : List (Point3f K)) (hcur : current.length = 40) :
    (initialPoints : List (Point3f K)).length = 40 ∧
    (initialPoints : List (Point3f K))[z * 8 + x]? =
      some ⟨3025 / 1000 * x, 0, 3025 / 1000 * z⟩ ∧
    (∀ p ∈ (initialPointsCentered : List (Point3f K)), p.y = 0) ∧
    ∃ M, covarianceMatrix initialPointsCentered
        (pointsTranslate current (centroid current).neg) = some M ∧
      (∀ c, M 1 c = 0) ∧ M.det = 0 ∧ ∀ d, IsSortedSVD M d → d.s 2 = 0 := by
  have hlen : (initialPointsCentered : List (Point3f K)).length =
      (pointsTranslate current (centroid current).neg).length := by
    rw [initialPointsCentered, pointsTranslate_length, pointsTranslate_length,
      initialPoints_length, hcur]
  have hrow : ∀ c : Fin 3, (Matrix.of fun r c =>
      (List.zipWith (fun p q : Point3f K => p.coord r * q.coord c) initialPointsCentered
        (pointsTranslate current (centroid current).neg)).sum : Mat33 K) 1 c = 0 := by
    intro c
    rw [Matrix.of_apply]
    exact covariance_row_one_zero _ c _ initialPointsCentered_y
  have hdet := Matrix.det_eq_zero_of_row_eq_zero (A := (Matrix.of fun r c =>
      (List.zipWith (fun p q : Point3f K => p.coord r * q.coord c) initialPointsCentered
        (pointsTranslate current (centroid current).neg)).sum : Mat33 K)) 1 hrow
  exact ⟨initialPoints_length, initialPoints_get x z hx hz, initialPointsCentered_y,
    _, covarianceMatrix_apply _ _ hlen, hrow, hdet,
    fun d hd => smallest_singular_value_zero _ d hd hdet⟩

/-- Witness of C10: the corner at x = 3, z = 2, and the grid itself as current
cloud, whose covariance `gridCov` has the decomposition `flipSVD`. -/
theorem grid_covariance_is_singular_witness :
    (3 < 8) ∧ (2 < 5) ∧ (initialPoints : List (Point3f ℚ)).length = 40 ∧
      (initialPoints : List (Point3f ℚ))[2 * 8 + 3]? =
        some ⟨3025 / 1000 * (3 : Nat), 0, 3025 / 1000 * (2 : Nat)⟩ ∧
      IsSortedSVD gridCov flipSVD ∧ gridCov.det = 0 ∧ flipSVD.s 2 = 0 := by
  obtain ⟨h40, hget, _, M, hM, _, hdet, hs⟩ :=
    grid_covariance_is_singular 3 2 (by decide) (by decide) (initialPoints : List (Point3f ℚ))
      initialPoints_length
  have hcov : covarianceMatrix (initialPointsCentered : List (Point3f ℚ))
      (pointsTranslate initialPoints (centroid initialPoints).neg) = some gridCov :=
    covariance_grid_self
  have hMeq : M = gridCov := Option.some.inj (hM.symm.trans hcov)
  rw [hMeq] at hdet hs
  exact ⟨by decide, by decide, h40, hget, flipSVD_isSortedSVD, hdet, hs flipSVD flipSVD_isSortedSVD⟩

end Track
